import Mathlib

/-!
Verification of the webhook news pipeline (`src/index.js`).

The development is a shallow embedding of the JavaScript source:

* byte buffers (`Buffer`) are `List Nat`; JavaScript out-of-range indexing
  `buffer[k]`, which yields `undefined`, is `List.get?` yielding `none`;
* strings are Lean `String`s, but every JavaScript string operation that the
  code performs character-wise (`split`, `replace`, `includes`, `startsWith`)
  is modelled on the underlying character list (`String.data`), matching the
  semantics of the corresponding JavaScript operation on UTF-16-free inputs;
* the cheerio DOM is a mutually inductive tree of elements and text nodes;
  `cheerio.load` of a fragment places the parsed nodes in the body of a
  synthetic document, and `$.html()` serializes that whole document,
  including the `<html><head></head><body>` scaffolding;
* network effects (`axios.get`, the Strapi upload endpoint) are oracles
  passed as function parameters: `none` models a thrown/caught failure
  (network error, timeout, or non-2xx status), mirroring the `try/catch`
  blocks that convert any such failure into a `null` return value;
* the in-place DOM mutation of the image-rewriting loop only changes `src`
  attributes, so it is modelled as collect-the-sources / decide / apply-back,
  which is observationally identical to the interleaved loop of the source.
-/

/-! ## Image transport (`detectImageType`, `uploadBufferToStrapi`,
`downloadAndUploadImage`, lines 59-147) -/

/-- Result record of `detectImageType`: a MIME string and an extension. -/
structure ImageType where
  mime : String
  ext : String
deriving DecidableEq, Repr

/-- Shallow embedding of `detectImageType` (lines 59-73).  The JavaScript
`buffer[k] === 0xNN` comparison is `buffer.get? k == some 0xNN`: an
out-of-range access yields `undefined` (here `none`), which compares unequal
to every number, so short buffers simply fail every signature test. -/
def detectImageType (buffer : List Nat) : Option ImageType :=
  if buffer.get? 0 == some 0x89 && buffer.get? 1 == some 0x50
      && buffer.get? 2 == some 0x4E && buffer.get? 3 == some 0x47 then
    some ⟨"image/png", "png"⟩
  else if buffer.get? 0 == some 0xFF && buffer.get? 1 == some 0xD8
      && buffer.get? 2 == some 0xFF then
    some ⟨"image/jpeg", "jpg"⟩
  else if buffer.get? 0 == some 0x47 && buffer.get? 1 == some 0x49
      && buffer.get? 2 == some 0x46 then
    some ⟨"image/gif", "gif"⟩
  else if buffer.get? 0 == some 0x52 && buffer.get? 1 == some 0x49
      && buffer.get? 2 == some 0x46 && buffer.get? 3 == some 0x46 then
    some ⟨"image/webp", "webp"⟩
  else
    none

/-- The signature table of `detectImageType`, as listed in the source. -/
def imageTypeTable : List ImageType :=
  [⟨"image/png", "png"⟩, ⟨"image/jpeg", "jpg"⟩,
   ⟨"image/gif", "gif"⟩, ⟨"image/webp", "webp"⟩]

/-- A Strapi upload request as assembled into the multipart `FormData`:
the filename, the declared content type, and the raw bytes. -/
structure UploadRequest where
  filename : String
  contentType : String
  bytes : List Nat
deriving DecidableEq, Repr

/-- An asset record returned by the Strapi upload endpoint
(`uploadResponse.data[0]`): its id and its relative URL. -/
structure UploadedFile where
  id : Nat
  url : String
deriving DecidableEq, Repr

/-- JavaScript `String.prototype.split` with a one-character separator:
splits at every occurrence of the separator, keeping empty runs, and always
returns a non-empty list (`"".split(c)` is `[""]`). -/
def jsSplit (sep : Char) : List Char → List (List Char)
  | [] => [[]]
  | c :: cs =>
    match jsSplit sep cs with
    | [] => [[]]
    | g :: gs => if c = sep then [] :: g :: gs else (c :: g) :: gs

/-- JavaScript `mimetype.split('/')[1] || 'png'` used on line 86:
the subtype of a MIME string, defaulting to `"png"` when the part after the
slash is missing or empty (both are falsy in JavaScript). -/
def mimeSubtypeOrPng (mimetype : String) : String :=
  match (jsSplit '/' mimetype.data).get? 1 with
  | some s => if s.isEmpty then "png" else s.asString
  | none => "png"

/-- The multipart request assembled by `uploadBufferToStrapi` (lines 76-104):
the detected type, when a magic-number signature matches, overrides the
caller-declared `mimetype`; the extension is appended only when the filename
has no dot. -/
def uploadBufferToStrapi (buffer : List Nat) (filename mimetype : String) :
    UploadRequest :=
  let detected := detectImageType buffer
  let m := match detected with
    | some d => d.mime
    | none => mimetype
  let ext := match detected with
    | some d => d.ext
    | none => mimeSubtypeOrPng mimetype
  { filename := if filename.data.contains '.' then filename
      else filename ++ "." ++ ext
    contentType := m
    bytes := buffer }

/-- The response of a remote image fetch: the raw bytes and the
`content-type` header. -/
structure RemoteImage where
  bytes : List Nat
  contentType : String
deriving DecidableEq, Repr

/-- The multipart request assembled by `downloadAndUploadImage`
(lines 115-147) once the download succeeded: the form's `contentType` is the
server-declared `response.headers['content-type']`; no magic-number
detection is performed on this path. -/
def downloadUploadForm (imageName : String) (response : RemoteImage) :
    UploadRequest :=
  { filename := imageName
    contentType := response.contentType
    bytes := response.bytes }

/-- Shallow embedding of `downloadAndUploadImage` (lines 115-147).
`network` models `axios.get` (returning `none` for network error, timeout,
or non-2xx), `uploadSvc` models the Strapi upload endpoint (returning `none`
for any upload failure).  Every failure is caught and surfaces as `none`. -/
def downloadAndUploadImage (network : String → Option RemoteImage)
    (uploadSvc : UploadRequest → Option UploadedFile)
    (imageUrl imageName : String) : Option UploadedFile :=
  match network imageUrl with
  | none => none
  | some response => uploadSvc (downloadUploadForm imageName response)

/-! ## The cheerio DOM model -/

mutual

/-- A cheerio DOM node: an element with a tag, an attribute list and
children, or a text node. -/
inductive Node where
  | elem (tag : String) (attrs : List (String × String)) (children : NodeList)
  | text (s : String)

/-- A sequence of sibling DOM nodes. -/
inductive NodeList where
  | nil
  | cons (n : Node) (ns : NodeList)

end

/-- First value of an attribute, as `cheerio`'s `.attr(name)`. -/
def getAttr (attrs : List (String × String)) (name : String) : Option String :=
  attrs.lookup name

/-- Update an attribute in place (or append it), as `cheerio`'s
`.attr(name, value)`. -/
def setAttr (attrs : List (String × String)) (name value : String) :
    List (String × String) :=
  if attrs.any (fun p => p.1 == name) then
    attrs.map (fun p => if p.1 == name then (p.1, value) else p)
  else
    attrs ++ [(name, value)]

/-- The HTML void elements, which serialize without a closing tag. -/
def voidTags : List String :=
  ["area", "base", "br", "col", "embed", "hr", "img", "input",
   "link", "meta", "param", "source", "track", "wbr"]

/-- Serialization of one attribute, `name="value"` preceded by a space. -/
def serializeAttr (p : String × String) : String :=
  " " ++ p.1 ++ "=\"" ++ p.2 ++ "\""

/-- Serialization of an attribute list, left to right. -/
def serializeAttrs (attrs : List (String × String)) : String :=
  attrs.foldr (fun p acc => serializeAttr p ++ acc) ""

mutual

/-- Serialization of a node, as produced by cheerio with
`decodeEntities: false`. -/
def serializeNode : Node → String
  | .elem tag attrs children =>
    if voidTags.contains tag then
      "<" ++ tag ++ serializeAttrs attrs ++ ">"
    else
      "<" ++ tag ++ serializeAttrs attrs ++ ">" ++ serializeNodes children
        ++ "</" ++ tag ++ ">"
  | .text s => s

/-- Serialization of a node list. -/
def serializeNodes : NodeList → String
  | .nil => ""
  | .cons n ns => serializeNode n ++ serializeNodes ns

end

/-- Cheerio's `$.html()` on a document loaded from a fragment: the fragment
was parsed into the body of a synthetic full document, and the whole
document is serialized, scaffolding included. -/
def dollarHtml (body : NodeList) : String :=
  "<html><head></head><body>" ++ serializeNodes body ++ "</body></html>"

mutual

/-- The `src` attribute values of all `img` elements under a node, in
document (pre-order) order — `$('img')` followed by `.attr('src')`. -/
def imgSrcsNode : Node → List (Option String)
  | .elem tag attrs children =>
    (if tag == "img" then [getAttr attrs "src"] else []) ++ imgSrcsNodes children
  | .text _ => []

/-- The `src` attribute values of all `img` elements under a node list. -/
def imgSrcsNodes : NodeList → List (Option String)
  | .nil => []
  | .cons n ns => imgSrcsNode n ++ imgSrcsNodes ns

end

mutual

/-- Apply new `src` values to the `img` elements of a node, in document
order: the k-th element of the list is `some url` when the k-th image's
`src` is to be rewritten to `url`, `none` when it is left untouched.
Returns the rewritten node and the unconsumed tail of the list. -/
def applySrcsNode : Node → List (Option String) → Node × List (Option String)
  | .elem tag attrs children, ds =>
    if tag == "img" then
      match ds with
      | [] => (.elem tag attrs children, [])
      | d :: rest =>
        let attrs' := match d with
          | some url => setAttr attrs "src" url
          | none => attrs
        let (children', rest') := applySrcsNodes children rest
        (.elem tag attrs' children', rest')
    else
      let (children', rest') := applySrcsNodes children ds
      (.elem tag attrs children', rest')
  | .text s, ds => (.text s, ds)

/-- Apply new `src` values to the `img` elements of a node list. -/
def applySrcsNodes : NodeList → List (Option String) →
    NodeList × List (Option String)
  | .nil, ds => (.nil, ds)
  | .cons n ns, ds =>
    let (n', ds') := applySrcsNode n ds
    let (ns', ds'') := applySrcsNodes ns ds'
    (.cons n' ns', ds'')

end

/-! ## `processImagesInContent` (lines 181-228) -/

/-- The qualification test of line 196: the `src` is a non-empty string
(JavaScript truthiness of `src &&`) starting with `http://` or `https://`. -/
def qualifiesStr (src : String) : Bool :=
  !src.data.isEmpty &&
    ("http://".data.isPrefixOf src.data || "https://".data.isPrefixOf src.data)

/-- Qualification of an optional `src` attribute: a missing attribute is
`undefined`, which is falsy. -/
def qualifiesOpt : Option String → Bool
  | some src => qualifiesStr src
  | none => false

/-- Keep only the characters allowed by the sanitizing regular expression
`[^a-zA-Z0-9.-]`, replacing every other character with `'_'` (line 204). -/
def sanitizeFilename (s : List Char) : List Char :=
  s.map (fun c => if c.isAlphanum || c == '.' || c == '-' then c else '_')

/-- The unprefixed filename of lines 197-201: the last path segment of the
URL (`src.split('/')` last element), query string stripped
(`.split('?')[0]`), with `.jpg` appended when it contains no dot. -/
def filenameStem (src : String) : List Char :=
  let urlParts := jsSplit '/' src.data
  let base := ((jsSplit '?' (urlParts.getLastD [])).headD [])
  if base.contains '.' then base else base ++ ".jpg".data

/-- The filename derivation of lines 197-205 for the image at position `i`:
the stem, sanitized, and prefixed with `content_<timestamp>_<index>_`
(JavaScript template `${timestamp}`/`${i}` interpolation is decimal
`Nat.repr`). -/
def deriveFilename (src : String) (timestamp i : Nat) : String :=
  "content_" ++ Nat.repr timestamp ++ "_" ++ Nat.repr i ++ "_"
    ++ (sanitizeFilename (filenameStem src)).asString

/-- JavaScript `Map.prototype.set`: overwrite the value of an existing key
in place, otherwise append the binding. -/
def mapSet (m : List (String × UploadedFile)) (k : String) (v : UploadedFile) :
    List (String × UploadedFile) :=
  if m.any (fun p => p.1 == k) then
    m.map (fun p => if p.1 == k then (p.1, v) else p)
  else
    m ++ [(k, v)]

/-- Output of the image loop of lines 192-219: the per-image rewrite
decisions (aligned with the images in document order), the transport
invocations `(url, filename)` actually made, the success and failure
counters, and the final `imageMap`. -/
structure LoopOut where
  newSrcs : List (Option String)
  calls : List (String × String)
  success : Nat
  failed : Nat
  imageMap : List (String × UploadedFile)

/-- The image loop of lines 192-219, one iteration per `img` element:
`i` is the loop index (over all images), `m` the `imageMap` accumulated so
far.  A qualifying image is downloaded and re-uploaded; on success its
`src` is rewritten to `strapiUrl + uploaded.url` and the asset recorded in
the map under the original `src`; on failure only the failure counter
moves.  Non-qualifying images are skipped entirely. -/
def processLoop (network : String → Option RemoteImage)
    (uploadSvc : UploadRequest → Option UploadedFile)
    (strapiUrl : String) (timestamp : Nat) :
    List (Option String) → Nat → List (String × UploadedFile) → LoopOut
  | [], _, m => ⟨[], [], 0, 0, m⟩
  | srcOpt :: rest, i, m =>
    match srcOpt with
    | some src =>
      if qualifiesStr src then
        let filename := deriveFilename src timestamp i
        match downloadAndUploadImage network uploadSvc src filename with
        | some uploaded =>
          let r := processLoop network uploadSvc strapiUrl timestamp rest
            (i + 1) (mapSet m src uploaded)
          ⟨some (strapiUrl ++ uploaded.url) :: r.newSrcs,
            (src, filename) :: r.calls, r.success + 1, r.failed, r.imageMap⟩
        | none =>
          let r := processLoop network uploadSvc strapiUrl timestamp rest
            (i + 1) m
          ⟨none :: r.newSrcs, (src, filename) :: r.calls,
            r.success, r.failed + 1, r.imageMap⟩
      else
        let r := processLoop network uploadSvc strapiUrl timestamp rest
          (i + 1) m
        ⟨none :: r.newSrcs, r.calls, r.success, r.failed, r.imageMap⟩
    | none =>
      let r := processLoop network uploadSvc strapiUrl timestamp rest
        (i + 1) m
      ⟨none :: r.newSrcs, r.calls, r.success, r.failed, r.imageMap⟩

/-- Aggregate statistics `{total, success, failed}` of line 226. -/
structure ImgStats where
  total : Nat
  success : Nat
  failed : Nat
deriving DecidableEq, Repr

/-- Return value of `processImagesInContent`, plus the list of transport
invocations as instrumentation. -/
structure ProcessResult where
  html : String
  images : List UploadedFile
  stats : ImgStats
  calls : List (String × String)

/-- The rewritten body produced by the loop of `processImagesInContent`:
collect the image sources, run the loop, apply the successful rewrites back
into the tree. -/
def processedBody (network : String → Option RemoteImage)
    (uploadSvc : UploadRequest → Option UploadedFile)
    (strapiUrl : String) (timestamp : Nat) (body : NodeList) : NodeList :=
  (applySrcsNodes body
    (processLoop network uploadSvc strapiUrl timestamp
      (imgSrcsNodes body) 0 []).newSrcs).1

/-- Shallow embedding of `processImagesInContent` (lines 181-228): the
returned `html` is `$.html()` of the mutated document (full-document
serialization), `images` is `Array.from(imageMap.values())`, and
`stats.total` is `$('img').length` — the number of all `img` elements. -/
def processImagesInContent (network : String → Option RemoteImage)
    (uploadSvc : UploadRequest → Option UploadedFile)
    (strapiUrl : String) (timestamp : Nat) (body : NodeList) : ProcessResult :=
  let srcs := imgSrcsNodes body
  let r := processLoop network uploadSvc strapiUrl timestamp srcs 0 []
  { html := dollarHtml (processedBody network uploadSvc strapiUrl timestamp body)
    images := r.imageMap.map (fun p => p.2)
    stats := ⟨srcs.length, r.success, r.failed⟩
    calls := r.calls }

/-! ## `processHtmlContent` (lines 150-178) -/

/-- Test for a `<script type="application/ld+json">` element. -/
def isLdJsonScript : Node → Bool
  | .elem tag attrs _ =>
    tag == "script" && getAttr attrs "type" == some "application/ld+json"
  | .text _ => false

mutual

/-- Remove every `application/ld+json` script from a node's descendants
(`$('script[type="application/ld+json"]').remove()`, line 154). -/
def removeLdJsonNode : Node → Node
  | .elem tag attrs children => .elem tag attrs (removeLdJsonNodes children)
  | .text s => .text s

/-- Remove every `application/ld+json` script from a node list. -/
def removeLdJsonNodes : NodeList → NodeList
  | .nil => .nil
  | .cons n ns =>
    if isLdJsonScript n then removeLdJsonNodes ns
    else .cons (removeLdJsonNode n) (removeLdJsonNodes ns)

end

/-- The first element child of a node list — `children().first()` skips
text nodes. -/
def firstElemChild : NodeList → Option Node
  | .nil => none
  | .cons n ns =>
    match n with
    | .elem tag attrs children => some (.elem tag attrs children)
    | .text _ => firstElemChild ns

/-- Remove the first element child from a node list (`.remove()` on the
result of `children().first()`), leaving text nodes in place. -/
def removeFirstElemChild : NodeList → NodeList
  | .nil => .nil
  | .cons n ns =>
    match n with
    | .elem _ _ _ => ns
    | .text s => .cons (.text s) (removeFirstElemChild ns)

mutual

/-- Whether a node has an `img` descendant (`.find('img').length > 0`):
`find` searches descendants only, not the node itself. -/
def hasImgNode : Node → Bool
  | .elem tag _ _ => tag == "img"
  | .text _ => false

/-- Whether a node list contains an `img` element at any depth. -/
def hasImgNodes : NodeList → Bool
  | .nil => false
  | .cons n ns =>
    (hasImgNode n ||
      (match n with
       | .elem _ _ children => hasImgNodes children
       | .text _ => false)) || hasImgNodes ns

end

mutual

/-- Concatenated text content of a node (`.text()`). -/
def textNode : Node → List Char
  | .elem _ _ children => textNodes children
  | .text s => s.data

/-- Concatenated text content of a node list. -/
def textNodes : NodeList → List Char
  | .nil => []
  | .cons n ns => textNode n ++ textNodes ns

end

/-- JavaScript `String.prototype.trim`: strip leading and trailing
whitespace. -/
def jsTrim (s : List Char) : List Char :=
  ((s.dropWhile Char.isWhitespace).reverse.dropWhile Char.isWhitespace).reverse

/-- The element-removal phase of `processHtmlContent` (lines 150-170) on the
body children: drop every `application/ld+json` script, then, when the first
element child is an `h1`, remove it, and remove the next element child when
it is a bare `img`, or a `p` that contains an `img` and whose text content
trims to the empty string. -/
def processBodyChildren (body : NodeList) : NodeList :=
  match firstElemChild (removeLdJsonNodes body) with
  | some (.elem tag _ _) =>
    if tag == "h1" then
      match firstElemChild (removeFirstElemChild (removeLdJsonNodes body)) with
      | some (.elem tag2 _ children2) =>
        if tag2 == "img" then
          removeFirstElemChild (removeFirstElemChild (removeLdJsonNodes body))
        else if tag2 == "p" then
          if hasImgNodes children2 && (jsTrim (textNodes children2)).isEmpty
          then
            removeFirstElemChild (removeFirstElemChild (removeLdJsonNodes body))
          else removeFirstElemChild (removeLdJsonNodes body)
        else removeFirstElemChild (removeLdJsonNodes body)
      | _ => removeFirstElemChild (removeLdJsonNodes body)
    else removeLdJsonNodes body
  | _ => removeLdJsonNodes body

/-- JavaScript `String.prototype.replace` with pattern `/<h2/g`: insert
`<br>` before every occurrence of the substring `<h2`. -/
def insertBrBeforeH2 : List Char → List Char
  | '<' :: 'h' :: '2' :: rest =>
    '<' :: 'b' :: 'r' :: '>' :: '<' :: 'h' :: '2' :: insertBrBeforeH2 rest
  | c :: cs => c :: insertBrBeforeH2 cs
  | [] => []

/-- Shallow embedding of `processHtmlContent` (lines 150-178): element
removal on the body, serialization of the body only (`$('body').html()`),
then the string-level `<br>` insertion before every `<h2`. -/
def processHtmlContent (body : NodeList) : String :=
  (insertBrBeforeH2 (serializeNodes (processBodyChildren body)).data).asString

/-! ## `verifyBearerToken` (lines 231-237) and the webhook route -/

/-- Shallow embedding of `verifyBearerToken` (lines 231-237): the token is
`authHeader.split(' ')[1]` — the field between the first and the second
space — compared with strict equality against the expected token; a missing
header fails. -/
def verifyBearerToken (authHeader : Option String) (expectedToken : String) :
    Bool :=
  match authHeader with
  | none => false
  | some h => (jsSplit ' ' h.data).get? 1 == some expectedToken.data

/-- The cover-selection block of the webhook route (lines 317-328):
`imageFile` is `some r` when a multipart attachment with field name `Image`
is present, in which case `r` is the result of `uploadBufferToStrapi` for it
(`none` on upload failure); only when no attachment is present at all does
the first entry of the rewriter's uploaded-assets list become the cover. -/
def heroImageSelection (imageFile : Option (Option UploadedFile))
    (images : List UploadedFile) : Option Nat :=
  match imageFile with
  | some uploadResult =>
    match uploadResult with
    | some uploaded => some uploaded.id
    | none => none
  | none =>
    match images with
    | first :: _ => some first.id
    | [] => none

/-- The JSON envelope built by `createNewsInStrapi` (lines 240-265):
`cover` is only attached under `if (heroImageId)`, which is JavaScript
truthiness — both `null` and the number `0` omit the field. -/
structure StrapiNewsPayload where
  title : String
  slug : String
  content : String
  cover : Option Nat
deriving DecidableEq, Repr

/-- Shallow embedding of `createNewsInStrapi` (lines 240-265), up to the
payload it posts. -/
def createNewsInStrapi (title slug processedContent : String)
    (heroImageId : Option Nat) : StrapiNewsPayload :=
  { title := title
    slug := slug
    content := processedContent
    cover := match heroImageId with
      | some i => if i = 0 then none else some i
      | none => none }

/-! ## Helper lemmas: `jsSplit` -/

theorem jsSplit_ne_nil (sep : Char) (l : List Char) : jsSplit sep l ≠ [] := by
  cases l with
  | nil => simp [jsSplit]
  | cons c cs =>
    unfold jsSplit
    cases h : jsSplit sep cs with
    | nil => simp
    | cons g gs =>
      by_cases hc : c = sep <;> simp [hc]

theorem jsSplit_of_not_mem {sep : Char} {l : List Char} (h : sep ∉ l) :
    jsSplit sep l = [l] := by
  induction l with
  | nil => rfl
  | cons c cs ih =>
    have hc : c ≠ sep := fun hcs => h (hcs ▸ List.mem_cons_self c cs)
    have hcs : sep ∉ cs := fun hm => h (List.mem_cons_of_mem c hm)
    unfold jsSplit
    rw [ih hcs]
    simp [hc]

theorem jsSplit_append_sep {sep : Char} {pre : List Char} (post : List Char)
    (h : sep ∉ pre) : jsSplit sep (pre ++ sep :: post) = pre :: jsSplit sep post := by
  induction pre with
  | nil =>
    cases hp : jsSplit sep post with
    | nil => exact absurd hp (jsSplit_ne_nil sep post)
    | cons g gs =>
      simp only [List.nil_append, jsSplit, hp]
      simp
  | cons c cs ih =>
    have hc : c ≠ sep := fun hcs => h (hcs ▸ List.mem_cons_self c cs)
    have hcs : sep ∉ cs := fun hm => h (List.mem_cons_of_mem c hm)
    have hih := ih hcs
    rw [List.cons_append]
    simp only [jsSplit, hih]
    simp [hc]

/-! ## Helper lemmas: decimal numerals (`Nat.repr`) -/

theorem digitChar_isDigit {m : Nat} (h : m < 10) :
    (Nat.digitChar m).isDigit = true := by
  interval_cases m <;> decide

/-- Decimal value of a digit character. -/
def digitVal (c : Char) : Nat := c.toNat - 48

theorem digitVal_digitChar {m : Nat} (h : m < 10) :
    digitVal (Nat.digitChar m) = m := by
  interval_cases m <;> decide

/-- Decimal value of a digit string. -/
def strVal (l : List Char) : Nat := l.foldl (fun a c => 10 * a + digitVal c) 0

theorem strVal_append_singleton (l : List Char) (c : Char) :
    strVal (l ++ [c]) = 10 * strVal l + digitVal c := by
  simp [strVal, List.foldl_append]

theorem toDigitsCore_append (fuel : Nat) : ∀ (n : Nat) (ds : List Char),
    Nat.toDigitsCore 10 fuel n ds = Nat.toDigitsCore 10 fuel n [] ++ ds := by
  induction fuel with
  | zero => intro n ds; simp [Nat.toDigitsCore]
  | succ f ih =>
    intro n ds
    unfold Nat.toDigitsCore
    by_cases h : n / 10 = 0
    · simp [h]
    · simp only [h, if_false]
      rw [ih (n / 10) [Nat.digitChar (n % 10)], ih (n / 10) (Nat.digitChar (n % 10) :: ds),
        List.append_assoc]
      rfl

theorem toDigitsCore_all_digits (fuel : Nat) : ∀ (n : Nat) (ds : List Char),
    (∀ c ∈ ds, c.isDigit = true) →
    ∀ c ∈ Nat.toDigitsCore 10 fuel n ds, c.isDigit = true := by
  induction fuel with
  | zero => intro n ds h; simpa [Nat.toDigitsCore] using h
  | succ f ih =>
    intro n ds h c hc
    have hd : (Nat.digitChar (n % 10)).isDigit = true :=
      digitChar_isDigit (Nat.mod_lt n (by decide))
    unfold Nat.toDigitsCore at hc
    by_cases h0 : n / 10 = 0
    · simp only [h0, if_true] at hc
      rcases List.mem_cons.mp hc with h1 | h1
      · exact h1 ▸ hd
      · exact h c h1
    · simp only [h0, if_false] at hc
      refine ih (n / 10) (Nat.digitChar (n % 10) :: ds) ?_ c hc
      intro x hx
      rcases List.mem_cons.mp hx with h1 | h1
      · exact h1 ▸ hd
      · exact h x h1

theorem repr_data_all_digits (n : Nat) :
    ∀ c ∈ (Nat.repr n).data, c.isDigit = true := by
  intro c hc
  exact toDigitsCore_all_digits (n + 1) n [] (by simp) c hc

theorem strVal_toDigitsCore : ∀ (fuel n : Nat), n < fuel →
    strVal (Nat.toDigitsCore 10 fuel n []) = n := by
  intro fuel
  induction fuel with
  | zero => intro n h; omega
  | succ f ih =>
    intro n h
    unfold Nat.toDigitsCore
    by_cases h0 : n / 10 = 0
    · have hn : n < 10 := by omega
      simp only [h0, if_true]
      have : strVal [Nat.digitChar (n % 10)] = digitVal (Nat.digitChar (n % 10)) := by
        simp [strVal, digitVal]
      rw [this, Nat.mod_eq_of_lt hn, digitVal_digitChar hn]
    · simp only [h0, if_false]
      have h10 : 10 > 1 := by decide
      have hnpos : 0 < n := by
        rcases Nat.eq_zero_or_pos n with h1 | h1
        · exact absurd (by simp [h1]) h0
        · exact h1
      have hdiv : n / 10 < n := Nat.div_lt_self hnpos h10
      have hf : n / 10 < f := by omega
      rw [toDigitsCore_append, strVal_append_singleton, ih (n / 10) hf,
        digitVal_digitChar (Nat.mod_lt n (by decide))]
      omega

theorem repr_data_inj {m n : Nat}
    (h : (Nat.repr m).data = (Nat.repr n).data) : m = n := by
  have hm : strVal ((Nat.repr m).data) = m := strVal_toDigitsCore (m + 1) m (by omega)
  have hn : strVal ((Nat.repr n).data) = n := strVal_toDigitsCore (n + 1) n (by omega)
  rw [← hm, ← hn, h]

theorem takeWhile_all_append {p : Char → Bool} : ∀ (l : List Char) (c : Char)
    (r : List Char), (∀ x ∈ l, p x = true) → p c = false →
    (l ++ c :: r).takeWhile p = l := by
  intro l c r hl hc
  induction l with
  | nil => simp [List.takeWhile_cons, hc]
  | cons a as ih =>
    have ha : p a = true := hl a (List.mem_cons_self a as)
    rw [List.cons_append, List.takeWhile_cons_of_pos ha,
      ih fun x hx => hl x (List.mem_cons_of_mem a hx)]

/-! ## Claim C10: totality of `detectImageType` -/

/-- C10: `detectImageType` is total on every buffer — including the empty
buffer and buffers shorter than the longest signature — and returns either
one of the four table entries or `none`; short buffers (length at most 2,
hence shorter than every signature) always yield `none`.  Out-of-range
indexing is modelled by `List.get?`, whose `none` result compares unequal to
every byte, exactly as JavaScript `undefined === 0xNN` is `false`. -/
theorem detectImageType_total_short_none (buffer : List Nat) :
    (detectImageType buffer = none ∨
      ∃ t ∈ imageTypeTable, detectImageType buffer = some t) ∧
    (buffer.length ≤ 2 → detectImageType buffer = none) := by
  constructor
  · unfold detectImageType
    repeat' split
    · right; exact ⟨_, by simp [imageTypeTable], rfl⟩
    · right; exact ⟨_, by simp [imageTypeTable], rfl⟩
    · right; exact ⟨_, by simp [imageTypeTable], rfl⟩
    · right; exact ⟨_, by simp [imageTypeTable], rfl⟩
    · left; rfl
  · intro h
    have h2 : buffer[2]? = none := List.getElem?_eq_none_iff.mpr h
    unfold detectImageType
    simp [h2]

/-- Witness for C10 at the one-byte buffer `[0x47]` (a truncated GIF
signature): it is short, and detection returns `none` without any
out-of-range failure. -/
theorem detectImageType_total_short_none_witness :
    [0x47].length ≤ 2 ∧ detectImageType [0x47] = none :=
  ⟨by decide, (detectImageType_total_short_none [0x47]).2 (by decide)⟩

/-! ## Claim C5: magic-number sniffing and the two transport paths -/

/-- The PNG signature bytes. -/
def pngSignature : List Nat := [0x89, 0x50, 0x4E, 0x47]

/-- Counterexample to C5: on the download path (`downloadAndUploadImage`),
a buffer starting with the PNG signature is uploaded with the
server-declared `content-type` (`image/jpeg` here), not `image/png` —
no magic-number detection happens on that path, as witnessed by an upload
service that only accepts `image/png` and therefore fails the transfer. -/
theorem download_path_keeps_declared_type :
    (downloadUploadForm "a.png" ⟨pngSignature, "image/jpeg"⟩).contentType
        = "image/jpeg" ∧
    detectImageType pngSignature = some ⟨"image/png", "png"⟩ ∧
    ("image/jpeg" : String) ≠ "image/png" ∧
    downloadAndUploadImage (fun _ => some ⟨pngSignature, "image/jpeg"⟩)
      (fun req => if req.contentType = "image/png" then some ⟨1, "/u/a.png"⟩
        else none)
      "http://h/a" "a.png" = none := by
  refine ⟨rfl, rfl, by decide, by decide⟩

/-- C5 (amended): the magic-number override applies only to the buffer path
(`uploadBufferToStrapi`): there a PNG-signature buffer is always uploaded as
`image/png` whatever the declared type, and a buffer matching no signature
keeps the declared type; the download path (`downloadAndUploadImage`)
forwards the server-declared content type unchanged, with no sniffing. -/
theorem png_signature_override_buffer_path_only (buffer : List Nat)
    (filename mimetype : String) :
    (buffer.take 4 = pngSignature →
      (uploadBufferToStrapi buffer filename mimetype).contentType
        = "image/png") ∧
    (detectImageType buffer = none →
      (uploadBufferToStrapi buffer filename mimetype).contentType
        = mimetype) ∧
    (∀ (imageName : String) (response : RemoteImage),
      (downloadUploadForm imageName response).contentType
        = response.contentType) := by
  refine ⟨?_, ?_, fun _ _ => rfl⟩
  · intro h
    rcases buffer with _ | ⟨a, _ | ⟨b, _ | ⟨c, _ | ⟨d, rest⟩⟩⟩⟩ <;>
      simp_all [pngSignature, uploadBufferToStrapi, detectImageType]
  · intro h
    simp [uploadBufferToStrapi, h]

/-- Witness for C5 (amended) at the PNG signature with a generic declared
type, and at a non-matching buffer. -/
theorem png_signature_override_buffer_path_only_witness :
    pngSignature.take 4 = pngSignature ∧
    (uploadBufferToStrapi pngSignature "cover-x"
      "application/octet-stream").contentType = "image/png" ∧
    detectImageType [1, 2, 3] = none ∧
    (uploadBufferToStrapi [1, 2, 3] "cover-x"
      "application/octet-stream").contentType = "application/octet-stream" :=
  ⟨by decide,
   (png_signature_override_buffer_path_only pngSignature "cover-x"
     "application/octet-stream").1 (by decide),
   by decide,
   (png_signature_override_buffer_path_only [1, 2, 3] "cover-x"
     "application/octet-stream").2.1 (by decide)⟩

/-! ## Claim C9: ingress authorization -/

/-- The token as described by the claim's words: the substring of the
header after its first space (everything to the end of the string), or
nothing when the header has no space.  This is the reading of C9 that is
compared against the code's actual extraction. -/
def claimedTokenAfterFirstSpace (header : String) : Option (List Char) :=
  match header.data.dropWhile (fun c => c != ' ') with
  | [] => none
  | _ :: rest => some rest

/-- Counterexample to C9: for the header `"Bearer k extra"` and configured
key `"k"`, the substring after the first space is `"k extra"`, which does
not equal the key — yet `verifyBearerToken` accepts, because
`split(' ')[1]` is only the field between the first and second space.
So acceptance is not equivalent to the claim's condition. -/
theorem auth_accepts_trailing_content :
    verifyBearerToken (some "Bearer k extra") "k" = true ∧
    claimedTokenAfterFirstSpace "Bearer k extra" ≠ some "k".data := by
  refine ⟨by decide, by decide⟩

/-- C9 (amended): authorization succeeds iff an Authorization header is
present and its second space-delimited field — the substring between the
first and the second space, or to the end of the header when there is no
second space — equals the configured API key; the scheme word before the
first space is never checked, and anything after a second space is
ignored. -/
theorem auth_second_space_field (scheme token rest : List Char) (key : String)
    (hs : ' ' ∉ scheme) (ht : ' ' ∉ token) :
    (∀ k : String, verifyBearerToken none k = false) ∧
    (verifyBearerToken (some (scheme ++ ' ' :: token).asString) key = true ↔
      token = key.data) ∧
    (verifyBearerToken (some (scheme ++ ' ' :: (token ++ ' ' :: rest)).asString)
        key = true ↔ token = key.data) := by
  refine ⟨fun _ => rfl, ?_, ?_⟩
  · show ((jsSplit ' ' ((scheme ++ ' ' :: token).asString).data).get? 1
        == some key.data) = true ↔ token = key.data
    rw [show ((scheme ++ ' ' :: token).asString).data
        = scheme ++ ' ' :: token from rfl]
    rw [jsSplit_append_sep token hs, jsSplit_of_not_mem ht]
    simp
  · show ((jsSplit ' '
        ((scheme ++ ' ' :: (token ++ ' ' :: rest)).asString).data).get? 1
        == some key.data) = true ↔ token = key.data
    rw [show ((scheme ++ ' ' :: (token ++ ' ' :: rest)).asString).data
        = scheme ++ ' ' :: (token ++ ' ' :: rest) from rfl]
    rw [jsSplit_append_sep (token ++ ' ' :: rest) hs, jsSplit_append_sep rest ht]
    simp

/-- Witness for C9 (amended): a misspelled scheme word with the correct
token is accepted, and a trailing field is ignored. -/
theorem auth_second_space_field_witness :
    verifyBearerToken (some ("Baerer".data ++ ' ' :: "secret".data).asString)
        "secret" = true ∧
    verifyBearerToken (some ("Bearer".data ++ ' ' ::
        ("secret".data ++ ' ' :: "junk".data)).asString) "secret" = true :=
  ⟨(auth_second_space_field "Baerer".data "secret".data [] "secret"
      (by decide) (by decide)).2.1.mpr rfl,
   (auth_second_space_field "Bearer".data "secret".data "junk".data "secret"
      (by decide) (by decide)).2.2.mpr rfl⟩

/-! ## Claim C1: cover selection -/

/-- Counterexample to C1: with an explicit hero attachment present whose
upload failed (`some none`) and a successfully uploaded content image with
id 5 available, the created document carries no cover at all — the code's
`else if` never reaches the content-image fallback when an attachment is
present, so the claimed fallback to the first content image does not
happen. -/
theorem cover_hero_upload_failure_no_fallback :
    (createNewsInStrapi "t" "s" "c"
      (heroImageSelection (some none) [⟨5, "/uploads/a.png"⟩])).cover = none ∧
    (createNewsInStrapi "t" "s" "c"
      (heroImageSelection (some none) [⟨5, "/uploads/a.png"⟩])).cover ≠ some 5 := by
  exact ⟨rfl, by decide⟩

/-- C1 (amended): cover priority as the code implements it — (a) an explicit
hero attachment present and successfully uploaded gives its asset id as the
cover; (b) an explicit hero attachment present whose upload failed gives no
cover, with no fallback to content images; (c) with no attachment, the
first entry of the rewriter's uploaded-assets list (when non-empty) is the
cover; (d) with no attachment and no uploaded assets, no cover field is
included.  (Asset ids are required non-zero because `if (heroImageId)` is a
JavaScript truthiness test, under which the id 0 would also omit the
field.) -/
theorem cover_selection_characterization (title slug content : String) :
    (∀ (up : UploadedFile) (images : List UploadedFile), up.id ≠ 0 →
      (createNewsInStrapi title slug content
        (heroImageSelection (some (some up)) images)).cover = some up.id) ∧
    (∀ images : List UploadedFile,
      (createNewsInStrapi title slug content
        (heroImageSelection (some none) images)).cover = none) ∧
    ((createNewsInStrapi title slug content
        (heroImageSelection none [])).cover = none) ∧
    (∀ (u : UploadedFile) (rest : List UploadedFile), u.id ≠ 0 →
      (createNewsInStrapi title slug content
        (heroImageSelection none (u :: rest))).cover = some u.id) := by
  refine ⟨?_, fun _ => rfl, rfl, ?_⟩
  · intro up images h
    simp [createNewsInStrapi, heroImageSelection, h]
  · intro u rest h
    simp [createNewsInStrapi, heroImageSelection, h]

/-- Witness for C1 (amended) at concrete assets with non-zero ids. -/
theorem cover_selection_characterization_witness :
    (createNewsInStrapi "t" "s" "c"
      (heroImageSelection (some (some ⟨9, "/uploads/h.png"⟩))
        [⟨5, "/uploads/a.png"⟩])).cover = some 9 ∧
    (createNewsInStrapi "t" "s" "c"
      (heroImageSelection none [⟨5, "/uploads/a.png"⟩])).cover = some 5 :=
  ⟨(cover_selection_characterization "t" "s" "c").1 ⟨9, "/uploads/h.png"⟩
      [⟨5, "/uploads/a.png"⟩] (by decide),
   (cover_selection_characterization "t" "s" "c").2.2.2 ⟨5, "/uploads/a.png"⟩
      [] (by decide)⟩

/-! ## Characterization of the image loop -/

/-- The transport invocation made for an indexed image source, if any:
qualifying sources produce the pair `(src, derived filename)`. -/
def callEntry (timestamp : Nat) (p : Nat × Option String) :
    Option (String × String) :=
  match p.2 with
  | some src =>
    if qualifiesStr src then some (src, deriveFilename src timestamp p.1)
    else none
  | none => none

/-- The successful upload produced for an indexed image source, if any. -/
def successEntry (network : String → Option RemoteImage)
    (uploadSvc : UploadRequest → Option UploadedFile) (timestamp : Nat)
    (p : Nat × Option String) : Option (String × UploadedFile) :=
  match p.2 with
  | some src =>
    if qualifiesStr src then
      match downloadAndUploadImage network uploadSvc src
          (deriveFilename src timestamp p.1) with
      | some u => some (src, u)
      | none => none
    else none
  | none => none

/-- The failed transport attempt for an indexed image source, if any. -/
def failEntry (network : String → Option RemoteImage)
    (uploadSvc : UploadRequest → Option UploadedFile) (timestamp : Nat)
    (p : Nat × Option String) : Option String :=
  match p.2 with
  | some src =>
    if qualifiesStr src then
      match downloadAndUploadImage network uploadSvc src
          (deriveFilename src timestamp p.1) with
      | some _ => none
      | none => some src
    else none
  | none => none

/-- The rewrite decision for an indexed image source: the new `src` value on
success, `none` otherwise (failure or non-qualifying). -/
def rewriteDecision (network : String → Option RemoteImage)
    (uploadSvc : UploadRequest → Option UploadedFile)
    (strapiUrl : String) (timestamp : Nat) (p : Nat × Option String) :
    Option String :=
  match p.2 with
  | some src =>
    if qualifiesStr src then
      (downloadAndUploadImage network uploadSvc src
        (deriveFilename src timestamp p.1)).map (fun u => strapiUrl ++ u.url)
    else none
  | none => none

theorem processLoop_eq (network : String → Option RemoteImage)
    (uploadSvc : UploadRequest → Option UploadedFile)
    (strapiUrl : String) (timestamp : Nat) :
    ∀ (srcs : List (Option String)) (i : Nat)
      (m : List (String × UploadedFile)),
    processLoop network uploadSvc strapiUrl timestamp srcs i m =
      ⟨(srcs.enumFrom i).map
          (rewriteDecision network uploadSvc strapiUrl timestamp),
        (srcs.enumFrom i).filterMap (callEntry timestamp),
        ((srcs.enumFrom i).filterMap
          (successEntry network uploadSvc timestamp)).length,
        ((srcs.enumFrom i).filterMap
          (failEntry network uploadSvc timestamp)).length,
        ((srcs.enumFrom i).filterMap
          (successEntry network uploadSvc timestamp)).foldl
          (fun acc e => mapSet acc e.1 e.2) m⟩ := by
  intro srcs
  induction srcs with
  | nil => intro i m; rfl
  | cons srcOpt rest ih =>
    intro i m
    cases srcOpt with
    | none =>
      simp only [processLoop, List.enumFrom_cons, List.map_cons,
        List.filterMap_cons]
      rw [ih]
      simp [rewriteDecision, callEntry, successEntry, failEntry]
    | some src =>
      by_cases hq : qualifiesStr src
      · cases hd : downloadAndUploadImage network uploadSvc src
            (deriveFilename src timestamp i) with
        | some u =>
          simp only [processLoop, hq, if_true, hd, List.enumFrom_cons,
            List.map_cons, List.filterMap_cons]
          rw [ih]
          simp [rewriteDecision, callEntry, successEntry, failEntry, hq, hd]
        | none =>
          simp only [processLoop, hq, if_true, hd, List.enumFrom_cons,
            List.map_cons, List.filterMap_cons]
          rw [ih]
          simp [rewriteDecision, callEntry, successEntry, failEntry, hq, hd]
      · simp only [processLoop, hq, if_false, List.enumFrom_cons,
          List.map_cons, List.filterMap_cons]
        rw [ih]
        simp [rewriteDecision, callEntry, successEntry, failEntry, hq]

/-- The number of qualifying image sources. -/
def qualCount (srcs : List (Option String)) : Nat :=
  (srcs.filter qualifiesOpt).length

theorem callEntry_count (timestamp : Nat) :
    ∀ (srcs : List (Option String)) (i : Nat),
    ((srcs.enumFrom i).filterMap (callEntry timestamp)).length
      = qualCount srcs := by
  intro srcs
  induction srcs with
  | nil => intro i; rfl
  | cons srcOpt rest ih =>
    intro i
    cases srcOpt with
    | none =>
      simp only [List.enumFrom_cons, List.filterMap_cons, callEntry]
      rw [show qualCount (none :: rest) = qualCount rest by
        simp [qualCount, List.filter_cons, qualifiesOpt]]
      exact ih (i + 1)
    | some src =>
      by_cases hq : qualifiesStr src
      · simp only [List.enumFrom_cons, List.filterMap_cons, callEntry, hq,
          if_true, List.length_cons]
        rw [show qualCount (some src :: rest) = qualCount rest + 1 by
          simp [qualCount, List.filter_cons, qualifiesOpt, hq]]
        rw [ih (i + 1)]
      · simp only [List.enumFrom_cons, List.filterMap_cons, callEntry, hq,
          if_false]
        rw [show qualCount (some src :: rest) = qualCount rest by
          simp [qualCount, List.filter_cons, qualifiesOpt, hq]]
        exact ih (i + 1)

theorem success_add_fail_count (network : String → Option RemoteImage)
    (uploadSvc : UploadRequest → Option UploadedFile) (timestamp : Nat) :
    ∀ (srcs : List (Option String)) (i : Nat),
    ((srcs.enumFrom i).filterMap
        (successEntry network uploadSvc timestamp)).length
      + ((srcs.enumFrom i).filterMap
        (failEntry network uploadSvc timestamp)).length
      = qualCount srcs := by
  intro srcs
  induction srcs with
  | nil => intro i; rfl
  | cons srcOpt rest ih =>
    intro i
    have hih := ih (i + 1)
    cases srcOpt with
    | none =>
      simp only [List.enumFrom_cons, List.filterMap_cons, successEntry,
        failEntry]
      rw [show qualCount (none :: rest) = qualCount rest by
        simp [qualCount, List.filter_cons, qualifiesOpt]]
      exact hih
    | some src =>
      by_cases hq : qualifiesStr src
      · have hqc : qualCount (some src :: rest) = qualCount rest + 1 := by
          simp [qualCount, List.filter_cons, qualifiesOpt, hq]
        cases hd : downloadAndUploadImage network uploadSvc src
            (deriveFilename src timestamp i) with
        | some u =>
          simp only [List.enumFrom_cons, List.filterMap_cons, successEntry,
            failEntry, hq, if_true, hd, List.length_cons]
          rw [hqc]
          omega
        | none =>
          simp only [List.enumFrom_cons, List.filterMap_cons, successEntry,
            failEntry, hq, if_true, hd, List.length_cons]
          rw [hqc]
          omega
      · simp only [List.enumFrom_cons, List.filterMap_cons, successEntry,
          failEntry, hq, if_false]
        rw [show qualCount (some src :: rest) = qualCount rest by
          simp [qualCount, List.filter_cons, qualifiesOpt, hq]]
        exact hih

/-! ## Tree-level lemmas for the rewriter -/

mutual

theorem applySrcsNode_nil_eq : ∀ (n : Node), applySrcsNode n [] = (n, [])
  | .elem tag attrs children => by
    by_cases h : tag == "img"
    · simp [applySrcsNode, h]
    · simp [applySrcsNode, h, applySrcsNodes_nil_eq children]
  | .text s => by simp [applySrcsNode]

theorem applySrcsNodes_nil_eq : ∀ (l : NodeList), applySrcsNodes l [] = (l, [])
  | .nil => by simp [applySrcsNodes]
  | .cons n ns => by
    simp [applySrcsNodes, applySrcsNode_nil_eq n, applySrcsNodes_nil_eq ns]

end

/-- Pointwise merge of the original image sources with the rewrite
decisions: a `some` decision replaces the source, a `none` decision keeps
it; sources beyond the decision list are kept. -/
def mergeSrcs : List (Option String) → List (Option String) →
    List (Option String)
  | [], _ => []
  | o :: os, [] => o :: os
  | o :: os, d :: ds =>
    (match d with | some u => some u | none => o) :: mergeSrcs os ds

theorem mergeSrcs_nil_right : ∀ (a : List (Option String)),
    mergeSrcs a [] = a
  | [] => rfl
  | _ :: _ => rfl

theorem mergeSrcs_append : ∀ (a b ds : List (Option String)),
    mergeSrcs (a ++ b) ds = mergeSrcs a ds ++ mergeSrcs b (ds.drop a.length) := by
  intro a
  induction a with
  | nil => intro b ds; simp [mergeSrcs]
  | cons o os ih =>
    intro b ds
    cases ds with
    | nil =>
      simp only [List.drop_nil, mergeSrcs, mergeSrcs_nil_right]
      simp [mergeSrcs_nil_right]
    | cons d rest =>
      simp only [List.cons_append, mergeSrcs, List.length_cons,
        List.drop_succ_cons, List.append_eq]
      rw [ih b rest]

theorem lookup_map_replace (name value : String) :
    ∀ (t : List (String × String)), t.any (fun p => p.1 == name) = true →
    List.lookup name
      (t.map (fun p => if p.1 == name then (p.1, value) else p)) = some value := by
  intro t
  induction t with
  | nil => intro h; simp at h
  | cons p t ih =>
    intro h
    obtain ⟨k, w⟩ := p
    by_cases hk : k = name
    · subst hk
      have hkk : (k == k) = true := beq_self_eq_true k
      rw [List.map_cons, if_pos hkk]
      simp [List.lookup, hkk]
    · have hk2 : (k == name) = false := by simp [hk]
      have hk2n : ¬((k, w).1 == name) = true := by simp [hk2]
      have hk3 : (name == k) = false := by simp [Ne.symm hk]
      have ht : t.any (fun p => p.1 == name) = true := by
        simpa [List.any_cons, hk2] using h
      rw [List.map_cons, if_neg hk2n]
      simp only [List.lookup, hk3]
      exact ih ht

theorem lookup_append_self (name value : String) :
    ∀ (t : List (String × String)), t.any (fun p => p.1 == name) = false →
    List.lookup name (t ++ [(name, value)]) = some value := by
  intro t
  induction t with
  | nil => intro h; simp [List.lookup]
  | cons p t ih =>
    intro h
    obtain ⟨k, w⟩ := p
    simp only [List.any_cons, Bool.or_eq_false_iff] at h
    obtain ⟨hk2, ht⟩ := h
    have hk3 : (name == k) = false := by
      simp only [beq_eq_false_iff_ne] at hk2 ⊢
      exact Ne.symm hk2
    simp only [List.cons_append, List.lookup, hk3]
    exact ih ht

theorem getAttr_setAttr (attrs : List (String × String)) (name value : String) :
    getAttr (setAttr attrs name value) name = some value := by
  by_cases h : attrs.any (fun p => p.1 == name)
  · rw [getAttr, setAttr, if_pos h]
    exact lookup_map_replace name value attrs h
  · rw [getAttr, setAttr, if_neg h]
    refine lookup_append_self name value attrs ?_
    simp only [Bool.not_eq_true] at h
    exact h

mutual

theorem imgSrcs_applySrcsNode : ∀ (n : Node) (ds : List (Option String)),
    imgSrcsNode (applySrcsNode n ds).1 = mergeSrcs (imgSrcsNode n) ds ∧
    (applySrcsNode n ds).2 = ds.drop (imgSrcsNode n).length
  | .elem tag attrs children, ds => by
    by_cases himg : tag == "img"
    · cases ds with
      | nil =>
        constructor
        · rw [applySrcsNode]
          simp only [himg, if_true]
          rw [mergeSrcs_nil_right]
        · rw [applySrcsNode]
          simp [himg]
      | cons d rest =>
        have hrec := imgSrcs_applySrcsNodes children rest
        constructor
        · simp only [applySrcsNode, himg, if_true, imgSrcsNode,
            List.singleton_append, mergeSrcs]
          rw [hrec.1]
          cases d with
          | some u => simp [getAttr_setAttr]
          | none => simp
        · simp only [applySrcsNode, himg, if_true, imgSrcsNode,
            List.singleton_append, List.length_cons, List.drop_succ_cons]
          exact hrec.2
    · have hrec := imgSrcs_applySrcsNodes children ds
      constructor
      · simp only [applySrcsNode, himg, Bool.false_eq_true, if_false,
          imgSrcsNode, List.nil_append]
        exact hrec.1
      · simp only [applySrcsNode, himg, Bool.false_eq_true, if_false,
          imgSrcsNode, List.nil_append]
        exact hrec.2
  | .text s, ds => by
    simp [applySrcsNode, imgSrcsNode, mergeSrcs]

theorem imgSrcs_applySrcsNodes : ∀ (l : NodeList) (ds : List (Option String)),
    imgSrcsNodes (applySrcsNodes l ds).1 = mergeSrcs (imgSrcsNodes l) ds ∧
    (applySrcsNodes l ds).2 = ds.drop (imgSrcsNodes l).length
  | .nil, ds => by simp [applySrcsNodes, imgSrcsNodes, mergeSrcs]
  | .cons n ns, ds => by
    have h1 := imgSrcs_applySrcsNode n ds
    have h2 := imgSrcs_applySrcsNodes ns ((applySrcsNode n ds).2)
    simp only [applySrcsNodes, imgSrcsNodes]
    constructor
    · rw [mergeSrcs_append, h1.1, h2.1, h1.2]
    · rw [h2.2, h1.2, List.drop_drop, List.length_append]

end

/-! ## Claim C2: rewriting with no qualifying images -/

/-- A network oracle on which every fetch fails. -/
def failingNetwork : String → Option RemoteImage := fun _ => none

/-- An upload service on which every upload fails. -/
def failingUpload : UploadRequest → Option UploadedFile := fun _ => none

/-- A network oracle serving fixed JPEG-typed bytes for every URL. -/
def fixedNetwork : String → Option RemoteImage :=
  fun _ => some ⟨[1, 2, 3], "image/jpeg"⟩

/-- An upload service returning a fixed asset record for every request. -/
def fixedUpload : UploadRequest → Option UploadedFile :=
  fun _ => some ⟨7, "/uploads/a.png"⟩

/-- A body holding a single image with a relative (non-qualifying) source. -/
def bodyRelImg : NodeList := .cons (.elem "img" [("src", "pic.jpg")] .nil) .nil

/-- Counterexample to C2: the fragment `<img src="pic.jpg">` has zero
images with an absolute http(s) source, yet the rewriter neither returns
the input string (its `$.html()` output wraps the body in full-document
scaffolding) nor the stats `{0,0,0}` (`total` counts every `img` element).
No transport invocation happens, as the claim says. -/
theorem rewrite_no_qualifying_not_identity :
    serializeNodes bodyRelImg = "<img src=\"pic.jpg\">" ∧
    qualifiesStr "pic.jpg" = false ∧
    (processImagesInContent failingNetwork failingUpload "http://strapi" 3
      bodyRelImg).html
      = "<html><head></head><body><img src=\"pic.jpg\"></body></html>" ∧
    (processImagesInContent failingNetwork failingUpload "http://strapi" 3
      bodyRelImg).html ≠ serializeNodes bodyRelImg ∧
    (processImagesInContent failingNetwork failingUpload "http://strapi" 3
      bodyRelImg).stats = ⟨1, 0, 0⟩ ∧
    (processImagesInContent failingNetwork failingUpload "http://strapi" 3
      bodyRelImg).stats ≠ ⟨0, 0, 0⟩ ∧
    (processImagesInContent failingNetwork failingUpload "http://strapi" 3
      bodyRelImg).calls = [] := by
  refine ⟨rfl, by decide, rfl, by decide, rfl, by decide, rfl⟩

/-- C2 (amended): for a body with no `img` element at all, the rewriter
leaves the body unchanged — the returned HTML is exactly the serialized
input body wrapped in the `<html><head></head><body>` scaffolding that
`$.html()` adds around a loaded fragment — the stats are `{0,0,0}`, no
transport invocation is made, and no asset is collected.  (When
non-qualifying `img` elements are present the body is still untouched and
no transport runs, but `stats.total` counts those images, so it is not 0.) -/
theorem rewrite_no_images_wrapped_unchanged
    (network : String → Option RemoteImage)
    (uploadSvc : UploadRequest → Option UploadedFile)
    (strapiUrl : String) (timestamp : Nat) (body : NodeList)
    (h : imgSrcsNodes body = []) :
    (processImagesInContent network uploadSvc strapiUrl timestamp body).html
      = dollarHtml body ∧
    (processImagesInContent network uploadSvc strapiUrl timestamp body).stats
      = ⟨0, 0, 0⟩ ∧
    (processImagesInContent network uploadSvc strapiUrl timestamp body).calls
      = [] ∧
    (processImagesInContent network uploadSvc strapiUrl timestamp body).images
      = [] := by
  unfold processImagesInContent processedBody
  rw [h]
  simp [processLoop, applySrcsNodes_nil_eq]

/-- A body with one paragraph and no images. -/
def bodyPara : NodeList := .cons (.elem "p" [] (.cons (.text "hi") .nil)) .nil

/-- Witness for C2 (amended) at a concrete image-free body. -/
theorem rewrite_no_images_wrapped_unchanged_witness :
    imgSrcsNodes bodyPara = [] ∧
    (processImagesInContent failingNetwork failingUpload "http://strapi" 0
      bodyPara).html = "<html><head></head><body><p>hi</p></body></html>" ∧
    (processImagesInContent failingNetwork failingUpload "http://strapi" 0
      bodyPara).stats = ⟨0, 0, 0⟩ :=
  ⟨rfl,
   by
    have := (rewrite_no_images_wrapped_unchanged failingNetwork failingUpload
      "http://strapi" 0 bodyPara rfl).1
    rw [this]; rfl,
   (rewrite_no_images_wrapped_unchanged failingNetwork failingUpload
      "http://strapi" 0 bodyPara rfl).2.1⟩

/-! ## Positional characterization of the rewritten sources -/

theorem imgSrcs_processedBody (network : String → Option RemoteImage)
    (uploadSvc : UploadRequest → Option UploadedFile)
    (strapiUrl : String) (timestamp : Nat) (body : NodeList) :
    imgSrcsNodes (processedBody network uploadSvc strapiUrl timestamp body)
      = mergeSrcs (imgSrcsNodes body)
        (((imgSrcsNodes body).enumFrom 0).map
          (rewriteDecision network uploadSvc strapiUrl timestamp)) := by
  unfold processedBody
  rw [processLoop_eq]
  exact (imgSrcs_applySrcsNodes body _).1

theorem mergeSrcs_getElem?_keep :
    ∀ (a b : List (Option String)) (k : Nat) (o : Option String),
    a[k]? = some o → (b[k]? = none ∨ b[k]? = some none) →
    (mergeSrcs a b)[k]? = some o := by
  intro a
  induction a with
  | nil => intro b k o h _; simp at h
  | cons x xs ih =>
    intro b k o h hb
    cases b with
    | nil => rw [mergeSrcs_nil_right]; exact h
    | cons d ds =>
      cases k with
      | zero =>
        simp only [List.getElem?_cons_zero, Option.some.injEq] at h
        subst h
        rcases hb with hb | hb
        · simp at hb
        · simp only [List.getElem?_cons_zero, Option.some.injEq] at hb
          subst hb
          simp [mergeSrcs]
      | succ k =>
        simp only [List.getElem?_cons_succ] at h hb
        simp only [mergeSrcs, List.getElem?_cons_succ]
        exact ih ds k o h hb

theorem decisions_getElem? (network : String → Option RemoteImage)
    (uploadSvc : UploadRequest → Option UploadedFile)
    (strapiUrl : String) (timestamp : Nat) (srcs : List (Option String))
    (k : Nat) (srcOpt : Option String) (h : srcs[k]? = some srcOpt) :
    ((srcs.enumFrom 0).map
        (rewriteDecision network uploadSvc strapiUrl timestamp))[k]?
      = some (rewriteDecision network uploadSvc strapiUrl timestamp
          (k, srcOpt)) := by
  rw [List.getElem?_map, List.getElem?_enumFrom, h]
  simp

/-! ## Claim C4: stats and non-qualifying images -/

/-- A body with a relative-source image followed by an absolute-source
image. -/
def bodyMixed : NodeList :=
  .cons (.elem "img" [("src", "pic.jpg")] .nil)
    (.cons (.elem "img" [("src", "http://h/a.jpg")] .nil) .nil)

/-- Counterexample to C4: with one relative image and one absolute image
that uploads successfully, the stats are `{total: 2, success: 1, failed: 0}`
— `total` is `$('img').length` and counts the relative image too, so
`total` does not equal `success + failed`. -/
theorem stats_total_counts_nonqualifying :
    (processImagesInContent fixedNetwork fixedUpload "http://strapi" 3
      bodyMixed).stats = ⟨2, 1, 0⟩ ∧
    (processImagesInContent fixedNetwork fixedUpload "http://strapi" 3
      bodyMixed).stats.total ≠
      (processImagesInContent fixedNetwork fixedUpload "http://strapi" 3
        bodyMixed).stats.success +
      (processImagesInContent fixedNetwork fixedUpload "http://strapi" 3
        bodyMixed).stats.failed := by
  refine ⟨by decide, by decide⟩

/-- C4 (amended): images without an absolute http(s) source are left
untouched and are excluded from `success` and `failed` (whose sum is the
number of qualifying images), but `stats.total` counts every `img` element
of the document, qualifying or not. -/
theorem stats_and_untouched_nonqualifying
    (network : String → Option RemoteImage)
    (uploadSvc : UploadRequest → Option UploadedFile)
    (strapiUrl : String) (timestamp : Nat) (body : NodeList) :
    (processImagesInContent network uploadSvc strapiUrl timestamp
        body).stats.total = (imgSrcsNodes body).length ∧
    (processImagesInContent network uploadSvc strapiUrl timestamp
        body).stats.success
      + (processImagesInContent network uploadSvc strapiUrl timestamp
        body).stats.failed = qualCount (imgSrcsNodes body) ∧
    (∀ (k : Nat) (srcOpt : Option String),
      (imgSrcsNodes body)[k]? = some srcOpt → qualifiesOpt srcOpt = false →
      (imgSrcsNodes (processedBody network uploadSvc strapiUrl timestamp
        body))[k]? = some srcOpt) := by
  refine ⟨rfl, ?_, ?_⟩
  · show (processLoop network uploadSvc strapiUrl timestamp
        (imgSrcsNodes body) 0 []).success
      + (processLoop network uploadSvc strapiUrl timestamp
        (imgSrcsNodes body) 0 []).failed = qualCount (imgSrcsNodes body)
    rw [processLoop_eq]
    exact success_add_fail_count network uploadSvc timestamp
      (imgSrcsNodes body) 0
  · intro k srcOpt h hq
    rw [imgSrcs_processedBody]
    refine mergeSrcs_getElem?_keep _ _ k srcOpt h (Or.inr ?_)
    rw [decisions_getElem? network uploadSvc strapiUrl timestamp _ k srcOpt h]
    cases srcOpt with
    | none => rfl
    | some src =>
      simp only [qualifiesOpt] at hq
      simp [rewriteDecision, hq]

/-- Witness for C4 (amended) at `bodyMixed`: the relative image at position
0 is excluded from the counts and its source survives rewriting. -/
theorem stats_and_untouched_nonqualifying_witness :
    (imgSrcsNodes bodyMixed)[0]? = some (some "pic.jpg") ∧
    qualifiesOpt (some "pic.jpg") = false ∧
    (imgSrcsNodes (processedBody fixedNetwork fixedUpload "http://strapi" 3
      bodyMixed))[0]? = some (some "pic.jpg") ∧
    (processImagesInContent fixedNetwork fixedUpload "http://strapi" 3
      bodyMixed).stats.success
      + (processImagesInContent fixedNetwork fixedUpload "http://strapi" 3
        bodyMixed).stats.failed = qualCount (imgSrcsNodes bodyMixed) :=
  ⟨rfl, by decide,
   (stats_and_untouched_nonqualifying fixedNetwork fixedUpload "http://strapi"
     3 bodyMixed).2.2 0 (some "pic.jpg") rfl (by decide),
   (stats_and_untouched_nonqualifying fixedNetwork fixedUpload "http://strapi"
     3 bodyMixed).2.1⟩

/-! ## Claim C6: soft failure of the transport -/

/-- C6: a failing download or upload surfaces as `none` from
`downloadAndUploadImage` (the `try/catch` swallows the error — in this
embedding the transport is total); the rewriter leaves the `src` of an
image whose transport failed unchanged, still performs one transport
invocation per qualifying image (no abort), and accounts every qualifying
image as either a success or a failure. -/
theorem transport_failure_soft_fail
    (network : String → Option RemoteImage)
    (uploadSvc : UploadRequest → Option UploadedFile)
    (strapiUrl : String) (timestamp : Nat) (body : NodeList) :
    (∀ (imageUrl imageName : String), network imageUrl = none →
      downloadAndUploadImage network uploadSvc imageUrl imageName = none) ∧
    (∀ (imageUrl imageName : String) (response : RemoteImage),
      network imageUrl = some response →
      uploadSvc (downloadUploadForm imageName response) = none →
      downloadAndUploadImage network uploadSvc imageUrl imageName = none) ∧
    (∀ (k : Nat) (src : String),
      (imgSrcsNodes body)[k]? = some (some src) → qualifiesStr src = true →
      downloadAndUploadImage network uploadSvc src
        (deriveFilename src timestamp k) = none →
      (imgSrcsNodes (processedBody network uploadSvc strapiUrl timestamp
        body))[k]? = some (some src)) ∧
    ((processImagesInContent network uploadSvc strapiUrl timestamp
        body).calls.length = qualCount (imgSrcsNodes body)) ∧
    ((processImagesInContent network uploadSvc strapiUrl timestamp
        body).stats.success
      + (processImagesInContent network uploadSvc strapiUrl timestamp
        body).stats.failed = qualCount (imgSrcsNodes body)) := by
  refine ⟨?_, ?_, ?_, ?_, ?_⟩
  · intro imageUrl imageName h
    simp [downloadAndUploadImage, h]
  · intro imageUrl imageName response h1 h2
    simp [downloadAndUploadImage, h1, h2]
  · intro k src h hq hfail
    rw [imgSrcs_processedBody]
    refine mergeSrcs_getElem?_keep _ _ k (some src) h (Or.inr ?_)
    rw [decisions_getElem? network uploadSvc strapiUrl timestamp _ k
      (some src) h]
    simp [rewriteDecision, hq, hfail]
  · show (processLoop network uploadSvc strapiUrl timestamp
        (imgSrcsNodes body) 0 []).calls.length = qualCount (imgSrcsNodes body)
    rw [processLoop_eq]
    exact callEntry_count timestamp (imgSrcsNodes body) 0
  · show (processLoop network uploadSvc strapiUrl timestamp
        (imgSrcsNodes body) 0 []).success
      + (processLoop network uploadSvc strapiUrl timestamp
        (imgSrcsNodes body) 0 []).failed = qualCount (imgSrcsNodes body)
    rw [processLoop_eq]
    exact success_add_fail_count network uploadSvc timestamp
      (imgSrcsNodes body) 0

/-- A body with one absolute-source image. -/
def bodyAbsImg : NodeList :=
  .cons (.elem "img" [("src", "http://h/a.jpg")] .nil) .nil

/-- Witness for C6 at a concrete document whose only image fails to
download: the source survives and the invocation was still made. -/
theorem transport_failure_soft_fail_witness :
    downloadAndUploadImage failingNetwork failingUpload "http://h/a.jpg"
      "content_3_0_a.jpg" = none ∧
    (imgSrcsNodes (processedBody failingNetwork failingUpload "http://strapi"
      3 bodyAbsImg))[0]? = some (some "http://h/a.jpg") ∧
    (processImagesInContent failingNetwork failingUpload "http://strapi" 3
      bodyAbsImg).calls.length = qualCount (imgSrcsNodes bodyAbsImg) :=
  ⟨(transport_failure_soft_fail failingNetwork failingUpload "http://strapi" 3
      bodyAbsImg).1 "http://h/a.jpg" "content_3_0_a.jpg" rfl,
   (transport_failure_soft_fail failingNetwork failingUpload "http://strapi" 3
      bodyAbsImg).2.2.1 0 "http://h/a.jpg" rfl (by decide) rfl,
   (transport_failure_soft_fail failingNetwork failingUpload "http://strapi" 3
      bodyAbsImg).2.2.2.1⟩

/-! ## Claim C3: the uploaded-assets list -/

theorem foldl_mapSet_of_nodup :
    ∀ (entries m : List (String × UploadedFile)),
    (entries.map Prod.fst).Nodup →
    (∀ x ∈ entries, ∀ p ∈ m, p.1 ≠ x.1) →
    entries.foldl (fun acc e => mapSet acc e.1 e.2) m = m ++ entries := by
  intro entries
  induction entries with
  | nil => intro m _ _; simp
  | cons e es ih =>
    intro m hnd hdisj
    obtain ⟨k, v⟩ := e
    have hkey : m.any (fun p => p.1 == k) = false := by
      rw [List.any_eq_false]
      intro p hp
      simpa using hdisj (k, v) (List.mem_cons_self _ _) p hp
    have hset : mapSet m k v = m ++ [(k, v)] := by
      simp [mapSet, hkey]
    have hnd' : (k :: es.map Prod.fst).Nodup := by
      simpa only [List.map_cons] using hnd
    obtain ⟨hnd1, hnd2⟩ := List.nodup_cons.mp hnd'
    have hdisj2 : ∀ x ∈ es, ∀ p ∈ (m ++ [(k, v)]), p.1 ≠ x.1 := by
      intro x hx p hp
      rcases List.mem_append.mp hp with hp | hp
      · exact hdisj x (List.mem_cons_of_mem _ hx) p hp
      · have hpkv : p = (k, v) := by simpa using hp
        subst hpkv
        intro hEq
        have hEq' : k = x.1 := hEq
        exact hnd1 (hEq' ▸ List.mem_map_of_mem Prod.fst hx)
    rw [List.foldl_cons, hset, ih (m ++ [(k, v)]) hnd2 hdisj2,
      List.append_assoc]
    rfl

/-- A body with two images referencing the same absolute source. -/
def bodyDupImg : NodeList :=
  .cons (.elem "img" [("src", "http://h/a.jpg")] .nil)
    (.cons (.elem "img" [("src", "http://h/a.jpg")] .nil) .nil)

/-- Counterexample to C3: with the same absolute source on two images and
both uploads succeeding, the success count is 2 but the returned
uploaded-assets list has a single entry — `imageMap` is keyed by `src`, so
the second success overwrites the first instead of adding an entry. -/
theorem uploaded_assets_dedup_on_duplicate_src :
    (processImagesInContent fixedNetwork fixedUpload "http://strapi" 3
      bodyDupImg).stats.success = 2 ∧
    (processImagesInContent fixedNetwork fixedUpload "http://strapi" 3
      bodyDupImg).images.length = 1 ∧
    (processImagesInContent fixedNetwork fixedUpload "http://strapi" 3
      bodyDupImg).images.length ≠
      (processImagesInContent fixedNetwork fixedUpload "http://strapi" 3
        bodyDupImg).stats.success := by
  refine ⟨by decide, by decide, by decide⟩

/-- C3 (amended): the rewriter's uploaded-assets list is the value list of a
map keyed by original `src`: when the successfully uploaded sources are
pairwise distinct, it has exactly one entry per successful upload, in
document order, and its length equals the success count; duplicate sources
collapse into a single entry (overwritten by the later success), so in
general the length can be smaller than the success count. -/
theorem uploaded_assets_distinct_srcs_match_success
    (network : String → Option RemoteImage)
    (uploadSvc : UploadRequest → Option UploadedFile)
    (strapiUrl : String) (timestamp : Nat) (body : NodeList)
    (hnd : (((List.enumFrom 0 (imgSrcsNodes body)).filterMap
      (successEntry network uploadSvc timestamp)).map Prod.fst).Nodup) :
    (processImagesInContent network uploadSvc strapiUrl timestamp body).images
      = ((List.enumFrom 0 (imgSrcsNodes body)).filterMap
        (successEntry network uploadSvc timestamp)).map Prod.snd ∧
    (processImagesInContent network uploadSvc strapiUrl timestamp
        body).images.length
      = (processImagesInContent network uploadSvc strapiUrl timestamp
        body).stats.success := by
  have hmap : (processImagesInContent network uploadSvc strapiUrl timestamp
      body).images
      = ((List.enumFrom 0 (imgSrcsNodes body)).filterMap
        (successEntry network uploadSvc timestamp)).map Prod.snd := by
    show ((processLoop network uploadSvc strapiUrl timestamp
      (imgSrcsNodes body) 0 []).imageMap.map (fun p => p.2)) = _
    rw [processLoop_eq]
    rw [foldl_mapSet_of_nodup _ [] hnd (by intro x _ p hp; simp at hp)]
    simp
  refine ⟨hmap, ?_⟩
  rw [hmap]
  show _ = (processLoop network uploadSvc strapiUrl timestamp
    (imgSrcsNodes body) 0 []).success
  rw [processLoop_eq]
  simp

/-- Witness for C3 (amended) at `bodyMixed`, whose single qualifying source
is trivially distinct. -/
theorem uploaded_assets_distinct_srcs_match_success_witness :
    (((List.enumFrom 0 (imgSrcsNodes bodyMixed)).filterMap
      (successEntry fixedNetwork fixedUpload 3)).map Prod.fst).Nodup ∧
    (processImagesInContent fixedNetwork fixedUpload "http://strapi" 3
      bodyMixed).images = [⟨7, "/uploads/a.png"⟩] ∧
    (processImagesInContent fixedNetwork fixedUpload "http://strapi" 3
      bodyMixed).images.length
      = (processImagesInContent fixedNetwork fixedUpload "http://strapi" 3
        bodyMixed).stats.success :=
  ⟨by decide,
   by
    have := (uploaded_assets_distinct_srcs_match_success fixedNetwork
      fixedUpload "http://strapi" 3 bodyMixed (by decide)).1
    rw [this]; rfl,
   (uploaded_assets_distinct_srcs_match_success fixedNetwork fixedUpload
     "http://strapi" 3 bodyMixed (by decide)).2⟩

/-! ## Claim C7: filename derivation -/

/-- Counterexample to C7: for `src = "http://h/a b.jpg"`, the derived base
name keeps an underscore — the sanitizing step replaces disallowed
characters with `'_'` rather than removing them, so the filename contains a
character that is neither alphanumeric nor `'.'` nor `'-'`. -/
theorem sanitize_replaces_with_underscore :
    sanitizeFilename "a b.jpg".data = "a_b.jpg".data ∧
    deriveFilename "http://h/a b.jpg" 3 0 = "content_3_0_a_b.jpg" ∧
    '_' ∈ (deriveFilename "http://h/a b.jpg" 3 0).data ∧
    ('_'.isAlphanum || '_' == '.' || '_' == '-') = false := by
  refine ⟨by decide, rfl, by decide, by decide⟩

/-- Characters that can appear in a derived filename: the characters kept
by the sanitizer plus the underscore it substitutes (also used by the
`content_<ts>_<i>_` prefix). -/
def allowedFilenameChar (c : Char) : Bool :=
  c.isAlphanum || c == '.' || c == '-' || c == '_'

theorem deriveFilename_data (src : String) (timestamp i : Nat) :
    (deriveFilename src timestamp i).data
      = ("content_".data ++ ((Nat.repr timestamp).data ++ ['_']))
        ++ ((Nat.repr i).data
          ++ '_' :: sanitizeFilename (filenameStem src)) := by
  show ("content_" ++ Nat.repr timestamp ++ "_" ++ Nat.repr i ++ "_"
    ++ (sanitizeFilename (filenameStem src)).asString).data = _
  simp only [String.data_append]
  rw [show ((sanitizeFilename (filenameStem src)).asString).data
      = sanitizeFilename (filenameStem src) from rfl]
  simp [List.append_assoc]

theorem deriveFilename_inj_idx {src src2 : String} {timestamp i j : Nat}
    (h : deriveFilename src timestamp i = deriveFilename src2 timestamp j) :
    i = j := by
  have hd := congrArg String.data h
  rw [deriveFilename_data, deriveFilename_data] at hd
  have h1 := List.append_cancel_left hd
  have h2 : ((Nat.repr i).data
        ++ '_' :: sanitizeFilename (filenameStem src)).takeWhile
          Char.isDigit
      = ((Nat.repr j).data
        ++ '_' :: sanitizeFilename (filenameStem src2)).takeWhile
          Char.isDigit := by rw [h1]
  rw [takeWhile_all_append _ _ _ (repr_data_all_digits i) (by decide),
    takeWhile_all_append _ _ _ (repr_data_all_digits j) (by decide)] at h2
  exact repr_data_inj h2

theorem sanitize_chars (l : List Char) :
    ∀ c ∈ sanitizeFilename l, allowedFilenameChar c = true := by
  intro c hc
  rcases List.mem_map.mp hc with ⟨x, _, hx⟩
  subst hx
  by_cases hk : (x.isAlphanum || x == '.' || x == '-') = true
  · rw [if_pos hk]
    simp [allowedFilenameChar, hk]
  · rw [if_neg hk]
    decide

theorem deriveFilename_chars (src : String) (timestamp i : Nat) :
    ∀ c ∈ (deriveFilename src timestamp i).data,
      allowedFilenameChar c = true := by
  have hdigit : ∀ d : Char, d.isDigit = true →
      allowedFilenameChar d = true := by
    intro d hd
    simp [allowedFilenameChar, Char.isAlphanum, hd]
  have hcontent : ∀ c ∈ "content_".data, allowedFilenameChar c = true := by
    decide
  intro c hc
  rw [deriveFilename_data] at hc
  rcases List.mem_append.mp hc with hc1 | hc2
  · rcases List.mem_append.mp hc1 with hca | hcb
    · exact hcontent c hca
    · rcases List.mem_append.mp hcb with hct | hcu
      · exact hdigit c (repr_data_all_digits timestamp c hct)
      · have hceq : c = '_' := by simpa using hcu
        subst hceq; decide
  · rcases List.mem_append.mp hc2 with hci | hcr
    · exact hdigit c (repr_data_all_digits i c hci)
    · rcases List.mem_cons.mp hcr with hcr | hcr
      · subst hcr; decide
      · exact sanitize_chars _ c hcr

theorem le_of_mem_enumFrom {α : Type} :
    ∀ (l : List α) (k : Nat) (p : Nat × α), p ∈ l.enumFrom k → k ≤ p.1 := by
  intro l
  induction l with
  | nil => intro k p hp; simp at hp
  | cons x xs ih =>
    intro k p hp
    rw [List.enumFrom_cons] at hp
    rcases List.mem_cons.mp hp with hp | hp
    · subst hp; exact Nat.le_refl k
    · exact Nat.le_of_succ_le (ih (k + 1) p hp)

theorem enumFrom_pairwise_lt {α : Type} :
    ∀ (l : List α) (k : Nat),
    (l.enumFrom k).Pairwise (fun a b => a.1 < b.1) := by
  intro l
  induction l with
  | nil => intro k; simp
  | cons x xs ih =>
    intro k
    rw [List.enumFrom_cons]
    refine List.pairwise_cons.mpr ⟨?_, ih (k + 1)⟩
    intro p hp
    exact Nat.lt_of_succ_le (le_of_mem_enumFrom xs (k + 1) p hp)

theorem getElem?_of_mem_enumFrom {α : Type} :
    ∀ (l : List α) (k : Nat) (p : Nat × α), p ∈ l.enumFrom k →
      l[p.1 - k]? = some p.2 := by
  intro l
  induction l with
  | nil => intro k p hp; simp at hp
  | cons x xs ih =>
    intro k p hp
    rw [List.enumFrom_cons] at hp
    rcases List.mem_cons.mp hp with hp | hp
    · subst hp; simp
    · have hk := le_of_mem_enumFrom xs (k + 1) p hp
      have hsub : p.1 - k = (p.1 - (k + 1)) + 1 := by omega
      rw [hsub, List.getElem?_cons_succ]
      exact ih (k + 1) p hp

theorem callEntry_some {timestamp : Nat} {p : Nat × Option String}
    {x : String × String} (h : callEntry timestamp p = some x) :
    ∃ src, p.2 = some src ∧ qualifiesStr src = true ∧
      x = (src, deriveFilename src timestamp p.1) := by
  rcases p with ⟨k, so⟩
  cases so with
  | none => simp [callEntry] at h
  | some src =>
    by_cases hq : qualifiesStr src
    · refine ⟨src, rfl, hq, ?_⟩
      simp only [callEntry, hq, if_true, Option.some.injEq] at h
      exact h.symm
    · simp [callEntry, hq] at h

/-- C7 (amended): the rewriter makes exactly one transport invocation per
qualifying image; the invoked filenames are pairwise distinct within the
document (the positional index in the `content_<ts>_<i>_` prefix
guarantees this); each invocation carries exactly the filename derived from
that image's source and positional index; and every character of a derived
filename is alphanumeric, `'.'`, `'-'` or `'_'` — the sanitizer substitutes
`'_'` for disallowed characters rather than removing them. -/
theorem filename_derivation_characterization
    (network : String → Option RemoteImage)
    (uploadSvc : UploadRequest → Option UploadedFile)
    (strapiUrl : String) (timestamp : Nat) (body : NodeList) :
    (processImagesInContent network uploadSvc strapiUrl timestamp body).calls
      = (List.enumFrom 0 (imgSrcsNodes body)).filterMap
        (callEntry timestamp) ∧
    (processImagesInContent network uploadSvc strapiUrl timestamp
      body).calls.length = qualCount (imgSrcsNodes body) ∧
    ((processImagesInContent network uploadSvc strapiUrl timestamp
      body).calls.map Prod.snd).Pairwise (fun a b => a ≠ b) ∧
    (∀ p ∈ (processImagesInContent network uploadSvc strapiUrl timestamp
      body).calls, ∃ k, (imgSrcsNodes body)[k]? = some (some p.1) ∧
        qualifiesStr p.1 = true ∧ p.2 = deriveFilename p.1 timestamp k) ∧
    (∀ p ∈ (processImagesInContent network uploadSvc strapiUrl timestamp
      body).calls, ∀ c ∈ (p.2 : String).data, allowedFilenameChar c = true) := by
  have hcalls : (processImagesInContent network uploadSvc strapiUrl timestamp
      body).calls
      = (List.enumFrom 0 (imgSrcsNodes body)).filterMap
        (callEntry timestamp) := by
    show (processLoop network uploadSvc strapiUrl timestamp
      (imgSrcsNodes body) 0 []).calls = _
    rw [processLoop_eq]
  refine ⟨hcalls, ?_, ?_, ?_, ?_⟩
  · rw [hcalls]
    exact callEntry_count timestamp (imgSrcsNodes body) 0
  · rw [hcalls, List.pairwise_map]
    rw [List.pairwise_filterMap]
    refine List.Pairwise.imp ?_
      (enumFrom_pairwise_lt (imgSrcsNodes body) 0)
    intro a b hab x hx y hy
    rcases callEntry_some (Option.mem_def.mp hx) with ⟨s1, _, _, hx2⟩
    rcases callEntry_some (Option.mem_def.mp hy) with ⟨s2, _, _, hy2⟩
    subst hx2; subst hy2
    intro hEq
    have := deriveFilename_inj_idx hEq
    omega
  · intro p hp
    rw [hcalls] at hp
    rcases List.mem_filterMap.mp hp with ⟨q, hq, hcall⟩
    rcases callEntry_some hcall with ⟨src, hsrc, hqual, hpx⟩
    refine ⟨q.1, ?_, ?_, ?_⟩
    · have := getElem?_of_mem_enumFrom (imgSrcsNodes body) 0 q hq
      rw [Nat.sub_zero] at this
      rw [this, hsrc]
      rw [show p.1 = src by rw [hpx]]
    · rw [show p.1 = src by rw [hpx]]; exact hqual
    · rw [show p.1 = src by rw [hpx], show p.2 = deriveFilename src timestamp
        q.1 by rw [hpx]]
  · intro p hp
    rw [hcalls] at hp
    rcases List.mem_filterMap.mp hp with ⟨q, _, hcall⟩
    rcases callEntry_some hcall with ⟨src, _, _, hpx⟩
    rw [show (p.2 : String) = deriveFilename src timestamp q.1 by rw [hpx]]
    exact deriveFilename_chars src timestamp q.1

/-- Witness for C7 (amended) at `bodyAbsImg` with timestamp 3: one
qualifying image, one call with the formula-derived unique filename. -/
theorem filename_derivation_characterization_witness :
    (processImagesInContent fixedNetwork fixedUpload "http://strapi" 3
      bodyAbsImg).calls = [("http://h/a.jpg", "content_3_0_a.jpg")] ∧
    (("http://h/a.jpg", "content_3_0_a.jpg") ∈
      (processImagesInContent fixedNetwork fixedUpload "http://strapi" 3
        bodyAbsImg).calls) ∧
    (∃ k, (imgSrcsNodes bodyAbsImg)[k]? = some (some "http://h/a.jpg") ∧
      qualifiesStr "http://h/a.jpg" = true ∧
      ("content_3_0_a.jpg" : String)
        = deriveFilename "http://h/a.jpg" 3 k) :=
  ⟨rfl, by decide,
   (filename_derivation_characterization fixedNetwork fixedUpload
     "http://strapi" 3 bodyAbsImg).2.2.2.1
     ("http://h/a.jpg", "content_3_0_a.jpg") (by decide)⟩

/-! ## Claim C8: normalization of the leading heading+image pattern -/

/-- A body whose first children are an `h1`, a bare image, and an
`application/ld+json` script. -/
def bodyH1ImgScript : NodeList :=
  .cons (.elem "h1" [] (.cons (.text "T") .nil))
    (.cons (.elem "img" [("src", "x")] .nil)
      (.cons (.elem "script" [("type", "application/ld+json")]
        (.cons (.text "{}") .nil)) .nil))

/-- Counterexample to C8: on a fragment whose first body child is an `h1`
followed by a standalone image, normalization does not remove only those two
elements — the `application/ld+json` script elsewhere in the fragment is
removed as well, leaving an empty body instead of the script alone. -/
theorem normalize_removes_ldjson_script_too :
    processBodyChildren bodyH1ImgScript = .nil ∧
    processBodyChildren bodyH1ImgScript ≠
      .cons (.elem "script" [("type", "application/ld+json")]
        (.cons (.text "{}") .nil)) .nil := by
  refine ⟨rfl, ?_⟩
  intro h
  rw [show processBodyChildren bodyH1ImgScript = .nil from rfl] at h
  exact NodeList.noConfusion h

/-- Whether the first element child of the body is not a heading level 1. -/
def firstElemNotH1 (body : NodeList) : Bool :=
  match firstElemChild body with
  | some (.elem tag _ _) => tag != "h1"
  | _ => true

/-- C8 (amended): on a fragment containing no `application/ld+json` script,
when the first body child is an `h1` followed by a standalone image — a bare
`img`, or a `p` that contains an `img` and whose text trims to empty —
normalization removes exactly those two elements; when the first element
child is not an `h1`, nothing is removed.  (On fragments that do contain an
`ld+json` script, those scripts are removed as well, before the `h1` test.) -/
theorem normalize_leading_h1_image_removal :
    (∀ (as : List (String × String)) (cs : NodeList)
        (ias : List (String × String)) (ics rest : NodeList),
      removeLdJsonNodes (.cons (.elem "h1" as cs)
          (.cons (.elem "img" ias ics) rest))
        = .cons (.elem "h1" as cs) (.cons (.elem "img" ias ics) rest) →
      processBodyChildren (.cons (.elem "h1" as cs)
        (.cons (.elem "img" ias ics) rest)) = rest) ∧
    (∀ (as : List (String × String)) (cs : NodeList)
        (pas : List (String × String)) (pcs rest : NodeList),
      removeLdJsonNodes (.cons (.elem "h1" as cs)
          (.cons (.elem "p" pas pcs) rest))
        = .cons (.elem "h1" as cs) (.cons (.elem "p" pas pcs) rest) →
      hasImgNodes pcs = true → (jsTrim (textNodes pcs)).isEmpty = true →
      processBodyChildren (.cons (.elem "h1" as cs)
        (.cons (.elem "p" pas pcs) rest)) = rest) ∧
    (∀ body : NodeList, removeLdJsonNodes body = body →
      firstElemNotH1 body = true → processBodyChildren body = body) := by
  refine ⟨?_, ?_, ?_⟩
  · intro as cs ias ics rest hclean
    unfold processBodyChildren
    rw [hclean]
    rfl
  · intro as cs pas pcs rest hclean h1 h2
    have key : processBodyChildren (.cons (.elem "h1" as cs)
        (.cons (.elem "p" pas pcs) rest))
        = if hasImgNodes pcs && (jsTrim (textNodes pcs)).isEmpty then rest
          else .cons (.elem "p" pas pcs) rest := by
      unfold processBodyChildren
      rw [hclean]
      rfl
    rw [key, h1, h2]
    rfl
  · intro body hclean hne
    unfold processBodyChildren
    rw [hclean]
    cases hfe : firstElemChild body with
    | none => rfl
    | some n =>
      cases n with
      | elem tag attrs children =>
        have htag : (tag == "h1") = false := by
          have hcopy := hne
          unfold firstElemNotH1 at hcopy
          rw [hfe] at hcopy
          simpa using hcopy
        simp [htag]
      | text s => rfl

/-- The remainder fragment used by the C8 witness. -/
def restPara : NodeList := .cons (.elem "p" [] (.cons (.text "x") .nil)) .nil

/-- Witness for C8 (amended): a bare leading image, a paragraph-wrapped
leading image, and a fragment starting with a paragraph, all script-free. -/
theorem normalize_leading_h1_image_removal_witness :
    processBodyChildren (.cons (.elem "h1" [] (.cons (.text "T") .nil))
      (.cons (.elem "img" [("src", "x")] .nil) restPara)) = restPara ∧
    processBodyChildren (.cons (.elem "h1" [] (.cons (.text "T") .nil))
      (.cons (.elem "p" [] (.cons (.elem "img" [("src", "x")] .nil) .nil))
        restPara)) = restPara ∧
    processBodyChildren restPara = restPara :=
  ⟨normalize_leading_h1_image_removal.1 [] (.cons (.text "T") .nil)
      [("src", "x")] .nil restPara rfl,
   normalize_leading_h1_image_removal.2.1 [] (.cons (.text "T") .nil)
      [] (.cons (.elem "img" [("src", "x")] .nil) .nil) restPara rfl
      (by decide) (by decide),
   normalize_leading_h1_image_removal.2.2 restPara rfl (by decide)⟩
